import Mathlib

/-!
Verification development for the `jupyter-js-services` Contents client
(`src/utils.ts`: URL utilities, `ajaxRequest`, `PromiseDelegate`, and the
`Contents` class).  Each definition is a shallow embedding of the source
function it is named after; theorems at the end settle the spec claims.
-/

set_option linter.unusedVariables false

namespace JupyterContents

/-- A JSON value, the type of response payloads (`success.data`). -/
inductive JsonValue where
  | null : JsonValue
  | bool (b : Bool) : JsonValue
  | num (n : Int) : JsonValue
  | str (s : String) : JsonValue
  | arr (xs : List JsonValue) : JsonValue
  | obj (fields : List (String × JsonValue)) : JsonValue

/-- The part of an `XMLHttpRequest` handle the client reads: `status` and
`statusText`. -/
structure XhrHandle where
  status : Nat
  statusText : String
deriving DecidableEq, Repr

/-- `IAjaxSuccess`: the fulfillment value of `ajaxRequest` (`{data, statusText,
xhr}`), from src/utils.ts lines 113-117. -/
structure IAjaxSuccess where
  data : JsonValue
  statusText : String
  xhr : XhrHandle

/-- `IAjaxError`: the rejection value of `ajaxRequest` (`{xhr, statusText,
error}`), from src/utils.ts lines 124-128; the `ErrorEvent` field is opaque to
the client and is dropped. -/
structure IAjaxError where
  xhr : XhrHandle
  statusText : String
deriving DecidableEq, Repr

/-- The outcome of one `ajaxRequest` call: it rejects with an `IAjaxError` or
fulfills with an `IAjaxSuccess`, exactly one of the two. -/
abbrev AjaxOutcome := Except IAjaxError IAjaxSuccess

/-- The rejection reason of a `Contents` operation promise: either the
transport rejection passed through unchanged, or an `Error(msg)` thrown inside
a `.then` handler. -/
inductive RejectReason where
  | ajaxError (e : IAjaxError) : RejectReason
  | errorMsg (msg : String) : RejectReason
deriving DecidableEq

/-- The settled result of a `Contents` operation returning a model. -/
abbrev ContentsResult := Except RejectReason JsonValue

/-- The settled result of a `Contents` operation returning no value. -/
abbrev VoidResult := Except RejectReason Unit

namespace Contents

/-! The response validators live in `validate.ts`, which only the import
`import * as validate from './validate'` witnesses here; per the spec the
client depends on them as pass/fail oracles, so each operation below takes the
oracle as a function argument.  `validateContentsModel` /
`validateCheckpointModel` throw on an invalid payload, which the embedding
renders as an `errorMsg` rejection. -/

/-- `Contents.get` response handling (src/utils.ts lines 308-314): reject any
status other than 200, validate the payload as a contents model, and resolve
with `success.data`. -/
def get (validateContentsModel : JsonValue → Bool) (outcome : AjaxOutcome) :
    ContentsResult :=
  match outcome with
  | .error e => .error (.ajaxError e)
  | .ok success =>
    if success.xhr.status ≠ 200 then
      .error (.errorMsg ("Invalid Status: " ++ toString success.xhr.status))
    else if validateContentsModel success.data then
      .ok success.data
    else
      .error (.errorMsg "Invalid Contents Model")

/-- `Contents.newUntitled` response handling (src/utils.ts lines 334-340):
status 201, contents-model validation, resolve with `success.data`. -/
def newUntitled (validateContentsModel : JsonValue → Bool)
    (outcome : AjaxOutcome) : ContentsResult :=
  match outcome with
  | .error e => .error (.ajaxError e)
  | .ok success =>
    if success.xhr.status ≠ 201 then
      .error (.errorMsg ("Invalid Status: " ++ toString success.xhr.status))
    else if validateContentsModel success.data then
      .ok success.data
    else
      .error (.errorMsg "Invalid Contents Model")

/-- `Contents.delete` response handling (src/utils.ts lines 352-365): status
204 resolves with no value; a transport rejection with status 400 is remapped
to `Error('Directory not found')`, any other transport rejection to
`Error(error.xhr.statusText)`. -/
def delete (outcome : AjaxOutcome) : VoidResult :=
  match outcome with
  | .error e =>
    if e.xhr.status = 400 then .error (.errorMsg "Directory not found")
    else .error (.errorMsg e.xhr.statusText)
  | .ok success =>
    if success.xhr.status ≠ 204 then
      .error (.errorMsg ("Invalid Status: " ++ toString success.xhr.status))
    else
      .ok ()

/-- `Contents.rename` response handling (src/utils.ts lines 380-386): status
200, contents-model validation, resolve with `success.data`. -/
def rename (validateContentsModel : JsonValue → Bool)
    (outcome : AjaxOutcome) : ContentsResult :=
  match outcome with
  | .error e => .error (.ajaxError e)
  | .ok success =>
    if success.xhr.status ≠ 200 then
      .error (.errorMsg ("Invalid Status: " ++ toString success.xhr.status))
    else if validateContentsModel success.data then
      .ok success.data
    else
      .error (.errorMsg "Invalid Contents Model")

/-- `Contents.save` response handling (src/utils.ts lines 400-407): status 200
(existing file) or 201 (new file), contents-model validation, resolve with
`success.data`. -/
def save (validateContentsModel : JsonValue → Bool)
    (outcome : AjaxOutcome) : ContentsResult :=
  match outcome with
  | .error e => .error (.ajaxError e)
  | .ok success =>
    if success.xhr.status ≠ 200 ∧ success.xhr.status ≠ 201 then
      .error (.errorMsg ("Invalid Status: " ++ toString success.xhr.status))
    else if validateContentsModel success.data then
      .ok success.data
    else
      .error (.errorMsg "Invalid Contents Model")

/-- `Contents.copy` response handling (src/utils.ts lines 422-428): status
201, contents-model validation, resolve with `success.data`. -/
def copy (validateContentsModel : JsonValue → Bool)
    (outcome : AjaxOutcome) : ContentsResult :=
  match outcome with
  | .error e => .error (.ajaxError e)
  | .ok success =>
    if success.xhr.status ≠ 201 then
      .error (.errorMsg ("Invalid Status: " ++ toString success.xhr.status))
    else if validateContentsModel success.data then
      .ok success.data
    else
      .error (.errorMsg "Invalid Contents Model")

/-- `Contents.createCheckpoint` response handling (src/utils.ts lines
440-446): status 201, checkpoint-model validation, resolve with
`success.data`. -/
def createCheckpoint (validateCheckpointModel : JsonValue → Bool)
    (outcome : AjaxOutcome) : ContentsResult :=
  match outcome with
  | .error e => .error (.ajaxError e)
  | .ok success =>
    if success.xhr.status ≠ 201 then
      .error (.errorMsg ("Invalid Status: " ++ toString success.xhr.status))
    else if validateCheckpointModel success.data then
      .ok success.data
    else
      .error (.errorMsg "Invalid Checkpoint Model")

/-- `Contents.listCheckpoints` response handling (src/utils.ts lines 458-469):
status 200, then `Array.isArray` check, then checkpoint-model validation of
every element (the source loop throws at the first invalid element), resolve
with `success.data` itself. -/
def listCheckpoints (validateCheckpointModel : JsonValue → Bool)
    (outcome : AjaxOutcome) : ContentsResult :=
  match outcome with
  | .error e => .error (.ajaxError e)
  | .ok success =>
    if success.xhr.status ≠ 200 then
      .error (.errorMsg ("Invalid Status: " ++ toString success.xhr.status))
    else
      match success.data with
      | .arr xs =>
        if xs.all validateCheckpointModel then .ok (.arr xs)
        else .error (.errorMsg "Invalid Checkpoint Model")
      | _ => .error (.errorMsg "Invalid Checkpoint list")

/-- `Contents.restoreCheckpoint` response handling (src/utils.ts lines
481-485): status 204 resolves with no value; no validation. -/
def restoreCheckpoint (outcome : AjaxOutcome) : VoidResult :=
  match outcome with
  | .error e => .error (.ajaxError e)
  | .ok success =>
    if success.xhr.status ≠ 204 then
      .error (.errorMsg ("Invalid Status: " ++ toString success.xhr.status))
    else
      .ok ()

/-- `Contents.deleteCheckpoint` response handling (src/utils.ts lines
498-502): status 204 resolves with no value; no validation. -/
def deleteCheckpoint (outcome : AjaxOutcome) : VoidResult :=
  match outcome with
  | .error e => .error (.ajaxError e)
  | .ok success =>
    if success.xhr.status ≠ 204 then
      .error (.errorMsg ("Invalid Status: " ++ toString success.xhr.status))
    else
      .ok ()

end Contents

/-! URL utilities (src/utils.ts lines 44-94). -/

/-- Drop every leading slash of a character list. -/
def dropSlashes : List Char → List Char
  | '/' :: rest => dropSlashes rest
  | rest => rest

/-- Collapse the first run of two or more consecutive slashes into one slash,
leaving everything else unchanged. -/
def collapseList : List Char → List Char
  | '/' :: '/' :: rest => '/' :: dropSlashes rest
  | c :: rest => c :: collapseList rest
  | [] => []

/-- `path.replace(/\/\/+/, '/')`: the regex has no global flag, so only the
first run of repeated slashes is collapsed. -/
def collapseFirstSlashRun (s : String) : String :=
  String.mk (collapseList s.toList)

/-- Loop body of `urlPathJoin` (src/utils.ts lines 45-59), with the running
index `i`.  The source computes `path = path.replace(/\/\/+/, '/')` for
`i > 0` but then appends `paths[i]`, the original segment, so `path` is a dead
store; the embedding keeps it to mirror the source. -/
def urlPathJoinAux : String → Nat → List String → String
  | url, _, [] => url
  | url, i, p :: rest =>
    if p = "" then urlPathJoinAux url (i + 1) rest
    else
      let path := if 0 < i then collapseFirstSlashRun p else p
      let url' :=
        if 0 < url.length ∧ url.back ≠ '/' then url ++ "/" ++ p
        else url ++ p
      urlPathJoinAux url' (i + 1) rest

/-- `urlPathJoin(...paths)` (src/utils.ts lines 44-61). -/
def urlPathJoin (paths : List String) : String :=
  urlPathJoinAux "" 0 paths

/-- Characters `encodeURIComponent` leaves unescaped: ASCII letters, digits,
and `- _ . ! ~ * ' ( )` (written by code point). -/
def isURIUnreservedChar (c : Char) : Bool :=
  let n := c.toNat
  (65 ≤ n ∧ n ≤ 90) ∨ (97 ≤ n ∧ n ≤ 122) ∨ (48 ≤ n ∧ n ≤ 57) ∨
    n = 45 ∨ n = 95 ∨ n = 46 ∨ n = 33 ∨ n = 126 ∨ n = 42 ∨ n = 39 ∨
    n = 40 ∨ n = 41

/-- The uppercase hexadecimal digit for `n < 16`. -/
def uppercaseHexDigit (n : Nat) : Char :=
  if n < 10 then Char.ofNat (48 + n) else Char.ofNat (55 + n)

/-- The UTF-8 encoding of one character, as byte values. -/
def utf8Bytes (c : Char) : List Nat :=
  let n := c.toNat
  if n < 128 then [n]
  else if n < 2048 then [192 + n / 64, 128 + n % 64]
  else if n < 65536 then [224 + n / 4096, 128 + n / 64 % 64, 128 + n % 64]
  else [240 + n / 262144, 128 + n / 4096 % 64, 128 + n / 64 % 64, 128 + n % 64]

/-- `%XX` percent-escape of one byte, uppercase hex. -/
def percentEncodeByte (b : Nat) : String :=
  String.mk ['%', uppercaseHexDigit (b / 16), uppercaseHexDigit (b % 16)]

/-- JavaScript's `encodeURIComponent`: unreserved characters kept, every other
character percent-escaped byte-by-byte in UTF-8. -/
def encodeURIComponent (s : String) : String :=
  String.join (s.toList.map fun c =>
    if isURIUnreservedChar c then String.mk [c]
    else String.join ((utf8Bytes c).map percentEncodeByte))

/-- `encodeURIComponents(uri)` (src/utils.ts lines 69-71): split on `/`,
encode each piece, rejoin with `/`. -/
def encodeURIComponents (uri : String) : String :=
  String.intercalate "/" ((uri.splitOn "/").map encodeURIComponent)

/-- `urlJoinEncode(...args)` (src/utils.ts lines 79-81). -/
def urlJoinEncode (args : List String) : String :=
  encodeURIComponents (urlPathJoin args)

/-- `jsonToQueryString(json)` (src/utils.ts lines 90-94); the mapping is a
list of key/value pairs in `Object.keys` insertion order. -/
def jsonToQueryString (json : List (String × String)) : String :=
  "?" ++ String.intercalate "&"
    (json.map fun kv => encodeURIComponent kv.1 ++ "=" ++ encodeURIComponent kv.2)

/-- `IContentsOpts` (src/utils.ts lines 225-231); `content` is `any` in the
source, so it is kept as an arbitrary JSON value here. -/
structure IContentsOpts where
  type : Option String := none
  format : Option String := none
  content : Option JsonValue := none
  ext : Option String := none
  name : Option String := none

namespace Contents

/-- The `_apiUrl` stored by the constructor (src/utils.ts line 291):
`urlPathJoin(baseUrl, 'api/contents')`. -/
def apiUrl (baseUrl : String) : String :=
  urlPathJoin [baseUrl, "api/contents"]

/-- `Contents._getUrl(...args)` (src/utils.ts lines 515-520):
`urlPathJoin(this._apiUrl, urlJoinEncode(...args))`. -/
def getUrl (baseUrl : String) (args : List String) : String :=
  urlPathJoin [apiUrl baseUrl, urlJoinEncode args]

/-- The query parameters `Contents.get` builds (src/utils.ts lines 303-306):
`if (options.type) { params.type = options.type; }` and the `format` guard are
JavaScript truthiness tests, so an empty string is skipped like an absent
field; `options.content === false` is a strict comparison with `false`. -/
def getParams (options : IContentsOpts) : List (String × String) :=
  (match options.type with
   | some t => if t ≠ "" then [("type", t)] else []
   | none => []) ++
  (match options.format with
   | some f => if f ≠ "" then [("format", f)] else []
   | none => []) ++
  (match options.content with
   | some (.bool false) => [("content", "0")]
   | _ => [])

/-- The full URL `Contents.get` requests (src/utils.ts lines 302-307):
`this._getUrl(path) + utils.jsonToQueryString(params)`. -/
def getRequestUrl (baseUrl path : String) (options : IContentsOpts) : String :=
  getUrl baseUrl [path] ++ jsonToQueryString (getParams options)

/-- The URL `Contents.listContents` requests (src/utils.ts lines 508-510): it
delegates to `get` with options `{type: 'directory'}`. -/
def listContentsRequestUrl (baseUrl path : String) : String :=
  getRequestUrl baseUrl path { type := some "directory" }

end Contents

/-- The `data` field of an `IAjaxSuccess` produced by `ajaxRequest`: either
the raw response text or the result of `JSON.parse`. -/
inductive AjaxData where
  | raw (response : String) : AjaxData
  | parsed (j : JsonValue) : AjaxData

/-- The response handling of `ajaxRequest`'s `onload` (src/utils.ts lines
144-150): `JSON.parse` runs only when `settings.dataType === 'json'` and
`req.response` is truthy (a non-empty string); otherwise `data` is the raw
response.  `JSON.parse` itself is a platform primitive, passed as `jsonParse`. -/
def ajaxOnLoadData (dataType : String) (response : String)
    (jsonParse : String → JsonValue) : AjaxData :=
  if dataType = "json" ∧ response ≠ "" then .parsed (jsonParse response)
  else .raw response

/-! `PromiseDelegate` (src/utils.ts lines 167-207) stores the `resolve` /
`reject` functions of one `Promise` and forwards calls to them.  Modelled from
the spec: the settlement semantics of the underlying `Promise` — a platform
primitive not present in src/ — namely that the value is produced at most
once, by the first of the two completion actions, later invocations being
no-ops, and that every observer sees the eventual outcome exactly once,
whether attached before or after settlement. -/

/-- The join behavior `urlPathJoin` actually implements, written from the
amended C6 claim's words for comparison with the source embedding: fold the
segments left to right, skipping empty segments and inserting a single `/`
before a segment exactly when the accumulated prefix is non-empty and does not
already end in `/`; no slash run is ever collapsed. -/
def joinStep (url p : String) : String :=
  if p = "" then url
  else if 0 < url.length ∧ url.back ≠ '/' then url ++ "/" ++ p
  else url ++ p

/-- See `joinStep`: the amended C6 join is the plain fold of `joinStep` over
the segments. -/
def urlPathJoinSpec (paths : List String) : String :=
  paths.foldl joinStep ""

/-- The query parameters the C7 claim describes, written from the claim's
words for comparison with `Contents.getParams`: `type` whenever `options.type`
is set, `format` whenever `options.format` is set, and `content=0` exactly
when `options.content` is the value `false`. -/
def claimedGetParams (options : IContentsOpts) : List (String × String) :=
  (match options.type with
   | some t => [("type", t)]
   | none => []) ++
  (match options.format with
   | some f => [("format", f)]
   | none => []) ++
  (match options.content with
   | some (.bool false) => [("content", "0")]
   | _ => [])

/-- The settled outcome of a deferred value. -/
inductive Outcome (T R : Type) where
  | fulfilled (v : T) : Outcome T R
  | rejected (r : R) : Outcome T R
deriving DecidableEq, Repr

/-- One interaction with a deferred value: a `resolve` or `reject` invocation,
or the attachment of an observer `o`. -/
inductive DeferredAction (T R ι : Type) where
  | resolve (v : T) : DeferredAction T R ι
  | reject (r : R) : DeferredAction T R ι
  | subscribe (o : ι) : DeferredAction T R ι
deriving DecidableEq, Repr

/-- The state of a deferred value: the first outcome once settled, and the
observers waiting while it is pending. -/
structure DeferredState (T R ι : Type) where
  settled : Option (Outcome T R)
  waiting : List ι
deriving DecidableEq, Repr

/-- The pristine deferred value: pending, no observers. -/
def DeferredState.init (T R ι : Type) : DeferredState T R ι := ⟨none, []⟩

/-- One step of a deferred value: the first `resolve`/`reject` records the
outcome and notifies every waiting observer; later `resolve`/`reject` calls
are no-ops; an observer attaching while pending waits, one attaching after
settlement is notified immediately.  Returns the new state and the
notifications `(observer, outcome)` emitted by the step. -/
def deferredStep (s : DeferredState T R ι) (a : DeferredAction T R ι) :
    DeferredState T R ι × List (ι × Outcome T R) :=
  match s.settled, a with
  | none, .resolve v =>
    (⟨some (.fulfilled v), []⟩, s.waiting.map fun o => (o, .fulfilled v))
  | none, .reject r =>
    (⟨some (.rejected r), []⟩, s.waiting.map fun o => (o, .rejected r))
  | some out, .resolve _ => (⟨some out, s.waiting⟩, [])
  | some out, .reject _ => (⟨some out, s.waiting⟩, [])
  | none, .subscribe o => (⟨none, s.waiting ++ [o]⟩, [])
  | some out, .subscribe o => (⟨some out, s.waiting⟩, [(o, out)])

/-- Run a deferred value through a sequence of actions, collecting every
notification in order. -/
def deferredRun (s : DeferredState T R ι) :
    List (DeferredAction T R ι) → DeferredState T R ι × List (ι × Outcome T R)
  | [] => (s, [])
  | a :: rest =>
    let step := deferredStep s a
    let next := deferredRun step.1 rest
    (next.1, step.2 ++ next.2)

/-- The outcome determined by the first `resolve`/`reject` in a sequence of
actions, if any. -/
def firstSettlement : List (DeferredAction T R ι) → Option (Outcome T R)
  | [] => none
  | .resolve v :: _ => some (.fulfilled v)
  | .reject r :: _ => some (.rejected r)
  | .subscribe _ :: rest => firstSettlement rest

/-- The observers subscribed by a sequence of actions, in order. -/
def subscribersOf : List (DeferredAction T R ι) → List ι
  | [] => []
  | .subscribe o :: rest => o :: subscribersOf rest
  | _ :: rest => subscribersOf rest

/-! Theorems. -/

/-- `urlPathJoinAux` never reads its index except in the dead `path` store, so
it is the plain fold over the segments. -/
theorem urlPathJoinAux_eq_foldl (ps : List String) : ∀ (url : String) (i : Nat),
    urlPathJoinAux url i ps = ps.foldl joinStep url := by
  induction ps with
  | nil => intro url i; rfl
  | cons p rest ih =>
    intro url i
    by_cases hp : p = ""
    · simp [urlPathJoinAux, joinStep, hp, ih]
    · simp [urlPathJoinAux, joinStep, hp, ih]

/-- C6 counterexample: `urlPathJoin` does not collapse the repeated `/` inside
the second segment — the collapsed `path` is a dead store and the original
`paths[i]` is appended — so on `["a", "b//c"]` it returns `"a/b//c"`, not the
`"a/b/c"` the claim requires. -/
theorem claim6_counterexample :
    urlPathJoin ["a", "b//c"] = "a/b//c" ∧
    urlPathJoin ["a", "b//c"] ≠ "a/b/c" := by
  constructor
  · rfl
  · decide

/-- C6 (amended): `urlPathJoin` concatenates the non-empty segments in order,
skipping empty segments, inserting a single `/` before a segment exactly when
the accumulated prefix is non-empty and does not already end in `/`; no
collapsing of repeated `/` is performed (the collapse computed for segments
from the second onward is discarded); in particular
`joinPath("a/", "", "b") = "a/b"`, `joinPath("", "x") = "x"`, and
`joinPath("a", "b") = "a/b"`. -/
theorem claim6_urlPathJoin_amended :
    (∀ paths : List String, urlPathJoin paths = urlPathJoinSpec paths) ∧
    urlPathJoin ["a/", "", "b"] = "a/b" ∧
    urlPathJoin ["", "x"] = "x" ∧
    urlPathJoin ["a", "b"] = "a/b" := by
  refine ⟨fun paths => urlPathJoinAux_eq_foldl paths "" 0, rfl, rfl, rfl⟩

/-- C1: for every model-returning operation, a successful transport outcome
whose status is in the operation's accepted set and whose payload passes the
validator oracle resolves with exactly `success.data`, unmodified. -/
theorem claim1_accepted_valid_resolves (v vc : JsonValue → Bool)
    (s : IAjaxSuccess) (xs : List JsonValue) :
    (s.xhr.status = 200 → v s.data = true →
      Contents.get v (.ok s) = .ok s.data) ∧
    (s.xhr.status = 201 → v s.data = true →
      Contents.newUntitled v (.ok s) = .ok s.data) ∧
    ((s.xhr.status = 200 ∨ s.xhr.status = 201) → v s.data = true →
      Contents.save v (.ok s) = .ok s.data) ∧
    (s.xhr.status = 200 → v s.data = true →
      Contents.rename v (.ok s) = .ok s.data) ∧
    (s.xhr.status = 201 → v s.data = true →
      Contents.copy v (.ok s) = .ok s.data) ∧
    (s.xhr.status = 201 → vc s.data = true →
      Contents.createCheckpoint vc (.ok s) = .ok s.data) ∧
    (s.xhr.status = 200 → s.data = .arr xs → xs.all vc = true →
      Contents.listCheckpoints vc (.ok s) = .ok s.data) := by
  refine ⟨?_, ?_, ?_, ?_, ?_, ?_, ?_⟩
  · intro hs hv; simp [Contents.get, hs, hv]
  · intro hs hv; simp [Contents.newUntitled, hs, hv]
  · intro hs hv
    rcases hs with h | h <;> simp [Contents.save, h, hv]
  · intro hs hv; simp [Contents.rename, hs, hv]
  · intro hs hv; simp [Contents.copy, hs, hv]
  · intro hs hv; simp [Contents.createCheckpoint, hs, hv]
  · intro hs hd hall; simp [Contents.listCheckpoints, hs, hd, hall]

/-- Witness for C1 at concrete transport outcomes, one per operation. -/
theorem claim1_witness :
    Contents.get (fun _ => true) (.ok ⟨.obj [], "OK", ⟨200, "OK"⟩⟩) =
      .ok (.obj []) ∧
    Contents.newUntitled (fun _ => true) (.ok ⟨.obj [], "Created", ⟨201, "Created"⟩⟩) =
      .ok (.obj []) ∧
    Contents.save (fun _ => true) (.ok ⟨.obj [], "Created", ⟨201, "Created"⟩⟩) =
      .ok (.obj []) ∧
    Contents.rename (fun _ => true) (.ok ⟨.obj [], "OK", ⟨200, "OK"⟩⟩) =
      .ok (.obj []) ∧
    Contents.copy (fun _ => true) (.ok ⟨.obj [], "Created", ⟨201, "Created"⟩⟩) =
      .ok (.obj []) ∧
    Contents.createCheckpoint (fun _ => true) (.ok ⟨.obj [], "Created", ⟨201, "Created"⟩⟩) =
      .ok (.obj []) ∧
    Contents.listCheckpoints (fun _ => true) (.ok ⟨.arr [.null], "OK", ⟨200, "OK"⟩⟩) =
      .ok (.arr [.null]) :=
  ⟨(claim1_accepted_valid_resolves (fun _ => true) (fun _ => true)
      ⟨.obj [], "OK", ⟨200, "OK"⟩⟩ []).1 rfl rfl,
   (claim1_accepted_valid_resolves (fun _ => true) (fun _ => true)
      ⟨.obj [], "Created", ⟨201, "Created"⟩⟩ []).2.1 rfl rfl,
   (claim1_accepted_valid_resolves (fun _ => true) (fun _ => true)
      ⟨.obj [], "Created", ⟨201, "Created"⟩⟩ []).2.2.1 (Or.inr rfl) rfl,
   (claim1_accepted_valid_resolves (fun _ => true) (fun _ => true)
      ⟨.obj [], "OK", ⟨200, "OK"⟩⟩ []).2.2.2.1 rfl rfl,
   (claim1_accepted_valid_resolves (fun _ => true) (fun _ => true)
      ⟨.obj [], "Created", ⟨201, "Created"⟩⟩ []).2.2.2.2.1 rfl rfl,
   (claim1_accepted_valid_resolves (fun _ => true) (fun _ => true)
      ⟨.obj [], "Created", ⟨201, "Created"⟩⟩ []).2.2.2.2.2.1 rfl rfl,
   (claim1_accepted_valid_resolves (fun _ => true) (fun _ => true)
      ⟨.arr [.null], "OK", ⟨200, "OK"⟩⟩ [.null]).2.2.2.2.2.2 rfl rfl rfl⟩

/-- C2: every operation rejects a successful transport outcome whose status is
outside its accepted set, regardless of payload or validator; and `save`
resolves for both status 200 and status 201 on a valid payload. -/
theorem claim2_status_gate (v vc : JsonValue → Bool) (s : IAjaxSuccess) :
    (s.xhr.status ≠ 200 → ∃ r, Contents.get v (.ok s) = .error r) ∧
    (s.xhr.status ≠ 201 → ∃ r, Contents.newUntitled v (.ok s) = .error r) ∧
    (s.xhr.status ≠ 200 ∧ s.xhr.status ≠ 201 →
      ∃ r, Contents.save v (.ok s) = .error r) ∧
    (s.xhr.status ≠ 200 → ∃ r, Contents.rename v (.ok s) = .error r) ∧
    (s.xhr.status ≠ 201 → ∃ r, Contents.copy v (.ok s) = .error r) ∧
    (s.xhr.status ≠ 201 → ∃ r, Contents.createCheckpoint vc (.ok s) = .error r) ∧
    (s.xhr.status ≠ 200 → ∃ r, Contents.listCheckpoints vc (.ok s) = .error r) ∧
    (s.xhr.status ≠ 204 → ∃ r, Contents.delete (.ok s) = .error r) ∧
    (s.xhr.status ≠ 204 → ∃ r, Contents.restoreCheckpoint (.ok s) = .error r) ∧
    (s.xhr.status ≠ 204 → ∃ r, Contents.deleteCheckpoint (.ok s) = .error r) ∧
    ((s.xhr.status = 200 ∨ s.xhr.status = 201) → v s.data = true →
      Contents.save v (.ok s) = .ok s.data) := by
  refine ⟨?_, ?_, ?_, ?_, ?_, ?_, ?_, ?_, ?_, ?_, ?_⟩
  · intro h
    exact ⟨.errorMsg ("Invalid Status: " ++ toString s.xhr.status),
      by simp [Contents.get, h]⟩
  · intro h
    exact ⟨.errorMsg ("Invalid Status: " ++ toString s.xhr.status),
      by simp [Contents.newUntitled, h]⟩
  · intro h
    exact ⟨.errorMsg ("Invalid Status: " ++ toString s.xhr.status),
      by simp [Contents.save, h.1, h.2]⟩
  · intro h
    exact ⟨.errorMsg ("Invalid Status: " ++ toString s.xhr.status),
      by simp [Contents.rename, h]⟩
  · intro h
    exact ⟨.errorMsg ("Invalid Status: " ++ toString s.xhr.status),
      by simp [Contents.copy, h]⟩
  · intro h
    exact ⟨.errorMsg ("Invalid Status: " ++ toString s.xhr.status),
      by simp [Contents.createCheckpoint, h]⟩
  · intro h
    exact ⟨.errorMsg ("Invalid Status: " ++ toString s.xhr.status),
      by simp [Contents.listCheckpoints, h]⟩
  · intro h
    exact ⟨.errorMsg ("Invalid Status: " ++ toString s.xhr.status),
      by simp [Contents.delete, h]⟩
  · intro h
    exact ⟨.errorMsg ("Invalid Status: " ++ toString s.xhr.status),
      by simp [Contents.restoreCheckpoint, h]⟩
  · intro h
    exact ⟨.errorMsg ("Invalid Status: " ++ toString s.xhr.status),
      by simp [Contents.deleteCheckpoint, h]⟩
  · intro hs hv
    rcases hs with h | h <;> simp [Contents.save, h, hv]

/-- Witness for C2: a 418 response is rejected by every operation, and `save`
accepts both 200 and 201. -/
theorem claim2_witness :
    (∃ r, Contents.get (fun _ => true)
      (.ok ⟨.obj [], "Teapot", ⟨418, "Teapot"⟩⟩) = .error r) ∧
    (∃ r, Contents.save (fun _ => true)
      (.ok ⟨.obj [], "Teapot", ⟨418, "Teapot"⟩⟩) = .error r) ∧
    (∃ r, Contents.delete (.ok ⟨.obj [], "Teapot", ⟨418, "Teapot"⟩⟩) = .error r) ∧
    Contents.save (fun _ => true) (.ok ⟨.obj [], "OK", ⟨200, "OK"⟩⟩) =
      .ok (.obj []) ∧
    Contents.save (fun _ => true) (.ok ⟨.obj [], "Created", ⟨201, "Created"⟩⟩) =
      .ok (.obj []) :=
  ⟨(claim2_status_gate (fun _ => true) (fun _ => true)
      ⟨.obj [], "Teapot", ⟨418, "Teapot"⟩⟩).1 (by decide),
   (claim2_status_gate (fun _ => true) (fun _ => true)
      ⟨.obj [], "Teapot", ⟨418, "Teapot"⟩⟩).2.2.1 ⟨by decide, by decide⟩,
   (claim2_status_gate (fun _ => true) (fun _ => true)
      ⟨.obj [], "Teapot", ⟨418, "Teapot"⟩⟩).2.2.2.2.2.2.2.1 (by decide),
   (claim2_status_gate (fun _ => true) (fun _ => true)
      ⟨.obj [], "OK", ⟨200, "OK"⟩⟩).2.2.2.2.2.2.2.2.2.2 (Or.inl rfl) rfl,
   (claim2_status_gate (fun _ => true) (fun _ => true)
      ⟨.obj [], "Created", ⟨201, "Created"⟩⟩).2.2.2.2.2.2.2.2.2.2 (Or.inr rfl) rfl⟩

/-- C3: every model-returning operation rejects an accepted-status response
whose payload fails the validator oracle, and a resolved value is always one
the oracle accepted (for `listCheckpoints`, a sequence whose every element the
oracle accepted). -/
theorem claim3_validation_gate (v vc : JsonValue → Bool) (s : IAjaxSuccess)
    (outcome : AjaxOutcome) :
    (s.xhr.status = 200 → v s.data = false →
      ∃ r, Contents.get v (.ok s) = .error r) ∧
    (s.xhr.status = 201 → v s.data = false →
      ∃ r, Contents.newUntitled v (.ok s) = .error r) ∧
    ((s.xhr.status = 200 ∨ s.xhr.status = 201) → v s.data = false →
      ∃ r, Contents.save v (.ok s) = .error r) ∧
    (s.xhr.status = 200 → v s.data = false →
      ∃ r, Contents.rename v (.ok s) = .error r) ∧
    (s.xhr.status = 201 → v s.data = false →
      ∃ r, Contents.copy v (.ok s) = .error r) ∧
    (s.xhr.status = 201 → vc s.data = false →
      ∃ r, Contents.createCheckpoint vc (.ok s) = .error r) ∧
    (s.xhr.status = 200 → ∀ xs, s.data = .arr xs → xs.all vc = false →
      ∃ r, Contents.listCheckpoints vc (.ok s) = .error r) ∧
    (∀ d, Contents.get v outcome = .ok d → v d = true) ∧
    (∀ d, Contents.newUntitled v outcome = .ok d → v d = true) ∧
    (∀ d, Contents.save v outcome = .ok d → v d = true) ∧
    (∀ d, Contents.rename v outcome = .ok d → v d = true) ∧
    (∀ d, Contents.copy v outcome = .ok d → v d = true) ∧
    (∀ d, Contents.createCheckpoint vc outcome = .ok d → vc d = true) ∧
    (∀ d, Contents.listCheckpoints vc outcome = .ok d →
      ∃ xs, d = .arr xs ∧ xs.all vc = true) := by
  refine ⟨?_, ?_, ?_, ?_, ?_, ?_, ?_, ?_, ?_, ?_, ?_, ?_, ?_, ?_⟩
  · intro hs hv
    exact ⟨.errorMsg "Invalid Contents Model", by simp [Contents.get, hs, hv]⟩
  · intro hs hv
    exact ⟨.errorMsg "Invalid Contents Model", by simp [Contents.newUntitled, hs, hv]⟩
  · intro hs hv
    refine ⟨.errorMsg "Invalid Contents Model", ?_⟩
    rcases hs with h | h <;> simp [Contents.save, h, hv]
  · intro hs hv
    exact ⟨.errorMsg "Invalid Contents Model", by simp [Contents.rename, hs, hv]⟩
  · intro hs hv
    exact ⟨.errorMsg "Invalid Contents Model", by simp [Contents.copy, hs, hv]⟩
  · intro hs hv
    exact ⟨.errorMsg "Invalid Checkpoint Model",
      by simp [Contents.createCheckpoint, hs, hv]⟩
  · intro hs xs hd hall
    exact ⟨.errorMsg "Invalid Checkpoint Model",
      by simp [Contents.listCheckpoints, hs, hd, hall]⟩
  · intro d h
    cases outcome with
    | error e => simp [Contents.get] at h
    | ok s' =>
      by_cases hs : s'.xhr.status = 200
      · by_cases hv : v s'.data = true
        · simp [Contents.get, hs, hv] at h
          exact h ▸ hv
        · simp [Contents.get, hs, hv] at h
      · simp [Contents.get, hs] at h
  · intro d h
    cases outcome with
    | error e => simp [Contents.newUntitled] at h
    | ok s' =>
      by_cases hs : s'.xhr.status = 201
      · by_cases hv : v s'.data = true
        · simp [Contents.newUntitled, hs, hv] at h
          exact h ▸ hv
        · simp [Contents.newUntitled, hs, hv] at h
      · simp [Contents.newUntitled, hs] at h
  · intro d h
    cases outcome with
    | error e => simp [Contents.save] at h
    | ok s' =>
      by_cases hacc : s'.xhr.status ≠ 200 ∧ s'.xhr.status ≠ 201
      · simp [Contents.save, hacc] at h
      · by_cases hv : v s'.data = true
        · simp [Contents.save, hacc, hv] at h
          exact h ▸ hv
        · simp [Contents.save, hacc, hv] at h
  · intro d h
    cases outcome with
    | error e => simp [Contents.rename] at h
    | ok s' =>
      by_cases hs : s'.xhr.status = 200
      · by_cases hv : v s'.data = true
        · simp [Contents.rename, hs, hv] at h
          exact h ▸ hv
        · simp [Contents.rename, hs, hv] at h
      · simp [Contents.rename, hs] at h
  · intro d h
    cases outcome with
    | error e => simp [Contents.copy] at h
    | ok s' =>
      by_cases hs : s'.xhr.status = 201
      · by_cases hv : v s'.data = true
        · simp [Contents.copy, hs, hv] at h
          exact h ▸ hv
        · simp [Contents.copy, hs, hv] at h
      · simp [Contents.copy, hs] at h
  · intro d h
    cases outcome with
    | error e => simp [Contents.createCheckpoint] at h
    | ok s' =>
      by_cases hs : s'.xhr.status = 201
      · by_cases hv : vc s'.data = true
        · simp [Contents.createCheckpoint, hs, hv] at h
          exact h ▸ hv
        · simp [Contents.createCheckpoint, hs, hv] at h
      · simp [Contents.createCheckpoint, hs] at h
  · intro d h
    cases outcome with
    | error e => simp [Contents.listCheckpoints] at h
    | ok s' =>
      by_cases hs : s'.xhr.status = 200
      · rcases hdata : s'.data with _ | b | n | st | xs | fs
        · simp [Contents.listCheckpoints, hs, hdata] at h
        · simp [Contents.listCheckpoints, hs, hdata] at h
        · simp [Contents.listCheckpoints, hs, hdata] at h
        · simp [Contents.listCheckpoints, hs, hdata] at h
        · by_cases hall : xs.all vc = true
          · simp [Contents.listCheckpoints, hs, hdata, hall] at h
            exact ⟨xs, h.symm, hall⟩
          · simp [Contents.listCheckpoints, hs, hdata, hall] at h
        · simp [Contents.listCheckpoints, hs, hdata] at h
      · simp [Contents.listCheckpoints, hs] at h

/-- Witness for C3: with a rejecting oracle a 200 `get` response is refused,
and an accepting oracle lets the resolved payload certify itself. -/
theorem claim3_witness :
    (∃ r, Contents.get (fun _ => false)
      (.ok ⟨.obj [], "OK", ⟨200, "OK"⟩⟩) = .error r) ∧
    (fun _ => true : JsonValue → Bool) (.obj []) = true :=
  ⟨(claim3_validation_gate (fun _ => false) (fun _ => false)
      ⟨.obj [], "OK", ⟨200, "OK"⟩⟩ (.ok ⟨.obj [], "OK", ⟨200, "OK"⟩⟩)).1 rfl rfl,
   (claim3_validation_gate (fun _ => true) (fun _ => true)
      ⟨.obj [], "OK", ⟨200, "OK"⟩⟩ (.ok ⟨.obj [], "OK", ⟨200, "OK"⟩⟩)).2.2.2.2.2.2.2.1
      (.obj []) rfl⟩

/-- C4: a transport-level rejection of `delete` with status 400 becomes
`Error('Directory not found')`, any other status becomes
`Error(error.xhr.statusText)`; every other operation passes the transport
rejection through unchanged. -/
theorem claim4_delete_error_mapping (v vc : JsonValue → Bool) (e : IAjaxError) :
    (e.xhr.status = 400 →
      Contents.delete (.error e) = .error (.errorMsg "Directory not found")) ∧
    (e.xhr.status ≠ 400 →
      Contents.delete (.error e) = .error (.errorMsg e.xhr.statusText)) ∧
    Contents.get v (.error e) = .error (.ajaxError e) ∧
    Contents.newUntitled v (.error e) = .error (.ajaxError e) ∧
    Contents.save v (.error e) = .error (.ajaxError e) ∧
    Contents.rename v (.error e) = .error (.ajaxError e) ∧
    Contents.copy v (.error e) = .error (.ajaxError e) ∧
    Contents.createCheckpoint vc (.error e) = .error (.ajaxError e) ∧
    Contents.listCheckpoints vc (.error e) = .error (.ajaxError e) ∧
    Contents.restoreCheckpoint (.error e) = .error (.ajaxError e) ∧
    Contents.deleteCheckpoint (.error e) = .error (.ajaxError e) := by
  refine ⟨?_, ?_, rfl, rfl, rfl, rfl, rfl, rfl, rfl, rfl, rfl⟩
  · intro h; simp [Contents.delete, h]
  · intro h; simp [Contents.delete, h]

/-- Witness for C4: a 400 rejection of `delete` is remapped, a 500 rejection
keeps the transport's status text. -/
theorem claim4_witness :
    Contents.delete (.error ⟨⟨400, "Bad Request"⟩, "Bad Request"⟩) =
      .error (.errorMsg "Directory not found") ∧
    Contents.delete (.error ⟨⟨500, "Internal Server Error"⟩, "Internal Server Error"⟩) =
      .error (.errorMsg "Internal Server Error") :=
  ⟨(claim4_delete_error_mapping (fun _ => true) (fun _ => true)
      ⟨⟨400, "Bad Request"⟩, "Bad Request"⟩).1 rfl,
   (claim4_delete_error_mapping (fun _ => true) (fun _ => true)
      ⟨⟨500, "Internal Server Error"⟩, "Internal Server Error"⟩).2.1 (by decide)⟩

/-- C5: on an accepted 200 response, `listCheckpoints` rejects any payload
that is not a sequence, whatever the checkpoint oracle says of it; on a
sequence payload it resolves with the sequence exactly when every element
passes the oracle. -/
theorem claim5_listCheckpoints_sequence (vc : JsonValue → Bool)
    (s : IAjaxSuccess) (hs : s.xhr.status = 200) :
    ((∀ xs : List JsonValue, s.data ≠ .arr xs) →
      ∃ r, Contents.listCheckpoints vc (.ok s) = .error r) ∧
    (∀ xs, s.data = .arr xs →
      (Contents.listCheckpoints vc (.ok s) = .ok (.arr xs) ↔
        xs.all vc = true)) := by
  constructor
  · intro hna
    refine ⟨.errorMsg "Invalid Checkpoint list", ?_⟩
    rcases hdata : s.data with _ | b | n | st | xs | fs
    · simp [Contents.listCheckpoints, hs, hdata]
    · simp [Contents.listCheckpoints, hs, hdata]
    · simp [Contents.listCheckpoints, hs, hdata]
    · simp [Contents.listCheckpoints, hs, hdata]
    · exact absurd hdata (hna xs)
    · simp [Contents.listCheckpoints, hs, hdata]
  · intro xs hd
    constructor
    · intro h
      by_cases hall : xs.all vc = true
      · exact hall
      · simp [Contents.listCheckpoints, hs, hd, hall] at h
    · intro hall
      simp [Contents.listCheckpoints, hs, hd, hall]

/-- Witness for C5: a single checkpoint object that the oracle accepts is
still refused, while a sequence of accepted elements resolves. -/
theorem claim5_witness :
    (∃ r, Contents.listCheckpoints (fun _ => true)
      (.ok ⟨.obj [("id", .str "x"), ("last_modified", .str "t")], "OK",
        ⟨200, "OK"⟩⟩) = .error r) ∧
    Contents.listCheckpoints (fun _ => true)
      (.ok ⟨.arr [.obj []], "OK", ⟨200, "OK"⟩⟩) = .ok (.arr [.obj []]) :=
  ⟨(claim5_listCheckpoints_sequence (fun _ => true)
      ⟨.obj [("id", .str "x"), ("last_modified", .str "t")], "OK", ⟨200, "OK"⟩⟩
      rfl).1 (fun xs h => JsonValue.noConfusion h),
   ((claim5_listCheckpoints_sequence (fun _ => true)
      ⟨.arr [.obj []], "OK", ⟨200, "OK"⟩⟩ rfl).2 [.obj []] rfl).mpr rfl⟩

/-- C7 counterexample: `Contents.get` guards the options with JavaScript
truthiness tests, so `options.type` set to the empty string contributes no
`type` parameter, while the claim's reading (`claimedGetParams`) would send
one. -/
theorem claim7_counterexample :
    Contents.getParams { type := some "" } = [] ∧
    claimedGetParams { type := some "" } = [("type", "")] ∧
    Contents.getParams { type := some "" } ≠
      claimedGetParams { type := some "" } := by
  refine ⟨rfl, rfl, ?_⟩
  decide

/-- C7 (amended): the query string of the outgoing `get` request carries
exactly the explicitly-set truthy fields — `type` when `options.type` is set
to a non-empty string, `format` when `options.format` is set to a non-empty
string, and `content=0` exactly when `options.content` is the value `false`;
unset (or empty-string) fields contribute nothing to the request. -/
theorem claim7_get_query_amended (baseUrl path : String)
    (options : IContentsOpts) :
    (∀ t, ("type", t) ∈ Contents.getParams options ↔
      options.type = some t ∧ t ≠ "") ∧
    (∀ f, ("format", f) ∈ Contents.getParams options ↔
      options.format = some f ∧ f ≠ "") ∧
    (∀ c, ("content", c) ∈ Contents.getParams options ↔
      c = "0" ∧ options.content = some (.bool false)) ∧
    (∀ kv ∈ Contents.getParams options,
      kv.1 = "type" ∨ kv.1 = "format" ∨ kv.1 = "content") ∧
    Contents.getRequestUrl baseUrl path options =
      Contents.getUrl baseUrl [path] ++
        jsonToQueryString (Contents.getParams options) := by
  rcases options with ⟨t0, f0, c0, e0, n0⟩
  refine ⟨?_, ?_, ?_, ?_, rfl⟩
  · intro t
    rcases t0 with _ | t0 <;> rcases f0 with _ | f0 <;>
      rcases c0 with _ | (_ | (_ | _) | nn | sc | ac | oc) <;>
      simp only [Contents.getParams] <;> (try split_ifs) <;>
      (try simp_all [List.mem_append]) <;> (try aesop)
  · intro f
    rcases t0 with _ | t0 <;> rcases f0 with _ | f0 <;>
      rcases c0 with _ | (_ | (_ | _) | nn | sc | ac | oc) <;>
      simp only [Contents.getParams] <;> (try split_ifs) <;>
      (try simp_all [List.mem_append]) <;> (try aesop)
  · intro c
    rcases t0 with _ | t0 <;> rcases f0 with _ | f0 <;>
      rcases c0 with _ | (_ | (_ | _) | nn | sc | ac | oc) <;>
      simp only [Contents.getParams] <;> (try split_ifs) <;>
      (try simp_all [List.mem_append])
  · intro kv hkv
    rcases t0 with _ | t0 <;> rcases f0 with _ | f0 <;>
      rcases c0 with _ | (_ | (_ | _) | nn | sc | ac | oc) <;>
      simp only [Contents.getParams] at hkv <;> (try split_ifs at hkv) <;>
      (try simp_all [List.mem_append]) <;> (try aesop)

/-- Witness for C7 (amended) at concrete options. -/
theorem claim7_witness :
    ("type", "notebook") ∈ Contents.getParams { type := some "notebook" } ∧
    ("content", "0") ∈ Contents.getParams { content := some (.bool false) } ∧
    (("type", "notebook").1 = "type" ∨ ("type", "notebook").1 = "format" ∨
      ("type", "notebook").1 = "content") :=
  ⟨((claim7_get_query_amended "b" "p" { type := some "notebook" }).1
      "notebook").mpr ⟨rfl, by decide⟩,
   ((claim7_get_query_amended "b" "p" { content := some (.bool false) }).2.2.1
      "0").mpr ⟨rfl, rfl⟩,
   (claim7_get_query_amended "b" "p" { type := some "notebook" }).2.2.2.1
      ("type", "notebook") (by decide)⟩

/-- C9: `get` always appends the query string, which for an empty parameter
mapping is the single character `?`; a `get` whose options set none of `type`,
`format`, or `content === false` therefore requests a URL ending in a bare
`?`, while `listContents`' delegation carries `type=directory` as the sole
parameter. -/
theorem claim9_bare_question_mark (options : IContentsOpts)
    (baseUrl path : String) :
    jsonToQueryString [] = "?" ∧
    Contents.getRequestUrl baseUrl path options =
      Contents.getUrl baseUrl [path] ++
        jsonToQueryString (Contents.getParams options) ∧
    (Contents.getParams options = [] →
      ∃ q, Contents.getRequestUrl baseUrl path options = q ++ "?") ∧
    Contents.getParams {} = [] ∧
    Contents.listContentsRequestUrl baseUrl path =
      Contents.getUrl baseUrl [path] ++ "?type=directory" := by
  refine ⟨rfl, rfl, ?_, rfl, ?_⟩
  · intro h
    refine ⟨Contents.getUrl baseUrl [path], ?_⟩
    unfold Contents.getRequestUrl
    rw [h]
    rfl
  · have h : jsonToQueryString
        (Contents.getParams { type := some "directory" }) = "?type=directory" := by
      decide
    simp only [Contents.listContentsRequestUrl, Contents.getRequestUrl, h]

/-- Witness for C9: a plain `get` with empty options requests a URL ending in
a bare `?`. -/
theorem claim9_witness :
    ∃ q, Contents.getRequestUrl "http://host" "nb.ipynb" {} = q ++ "?" :=
  (claim9_bare_question_mark {} "http://host" "nb.ipynb").2.2.1 rfl

/-- C10: `ajaxRequest`'s `onload` parses the body as JSON exactly when the
declared `dataType` is `'json'` and the raw response is non-empty; an empty
body (for instance a 204 No Content response) is passed through raw, so
`JSON.parse` is never attempted on an empty string. -/
theorem claim10_json_parse_guard (dataType response : String)
    (jsonParse : String → JsonValue) :
    (ajaxOnLoadData dataType response jsonParse = .parsed (jsonParse response) ↔
      dataType = "json" ∧ response ≠ "") ∧
    (response = "" → ajaxOnLoadData dataType response jsonParse = .raw response) ∧
    (dataType ≠ "json" → ajaxOnLoadData dataType response jsonParse = .raw response) := by
  refine ⟨?_, ?_, ?_⟩
  · by_cases h : dataType = "json" ∧ response ≠ ""
    · simp [ajaxOnLoadData, h]
    · simp [ajaxOnLoadData, h]
  · intro h
    simp [ajaxOnLoadData, h]
  · intro h
    simp [ajaxOnLoadData, h]

/-- Witness for C10: an empty `'json'`-typed body is delivered raw. -/
theorem claim10_witness :
    ajaxOnLoadData "json" "" (fun _ => .null) = .raw "" :=
  (claim10_json_parse_guard "json" "" (fun _ => .null)).2.1 rfl

/-- Once settled, a deferred value's state never changes again. -/
theorem deferredRun_settled_const {T R ι : Type}
    (as : List (DeferredAction T R ι)) (o : Outcome T R) (w : List ι) :
    (deferredRun ⟨some o, w⟩ as).1 = ⟨some o, w⟩ := by
  induction as with
  | nil => rfl
  | cons a rest ih => cases a <;> simp [deferredRun, deferredStep, ih]

/-- From a settled state, the notifications are exactly one per subscriber,
each carrying the settled outcome. -/
theorem deferredRun_settled_deliveries {T R ι : Type}
    (as : List (DeferredAction T R ι)) (o : Outcome T R) (w : List ι) :
    (deferredRun ⟨some o, w⟩ as).2 =
      (subscribersOf as).map (fun j => (j, o)) := by
  induction as with
  | nil => rfl
  | cons a rest ih =>
    cases a <;> simp [deferredRun, deferredStep, subscribersOf, ih]

/-- Filtering tagged pairs by their first component is filtering the tags. -/
theorem filter_fst_map_pair {T R ι : Type} [DecidableEq ι]
    (l : List ι) (o : Outcome T R) (i : ι) :
    ((l.map (fun j => (j, o))).filter (fun d => d.1 == i)) =
      (l.filter (fun j => j == i)).map (fun j => (j, o)) := by
  induction l with
  | nil => rfl
  | cons j rest ih =>
    by_cases hj : (j == i) = true <;> simp [List.filter_cons, hj, ih]

/-- `List.filter` keeps a head satisfying the predicate. -/
theorem filterCons_pos {α : Type} (p : α → Bool) (a : α) (l : List α)
    (h : p a = true) : (a :: l).filter p = a :: l.filter p := by
  simp [List.filter_cons, h]

/-- `List.filter` drops a head refuting the predicate. -/
theorem filterCons_neg {α : Type} (p : α → Bool) (a : α) (l : List α)
    (h : p a = false) : (a :: l).filter p = l.filter p := by
  simp [List.filter_cons, h]

/-- An observer that is neither waiting nor ever subscribes receives no
notification. -/
theorem deferredRun_no_subscriber_deliveries {T R ι : Type} [DecidableEq ι]
    (i : ι) (as : List (DeferredAction T R ι)) :
    ∀ s : DeferredState T R ι,
    (subscribersOf as).filter (fun j => j == i) = [] →
    s.waiting.filter (fun j => j == i) = [] →
    ((deferredRun s as).2).filter (fun d => d.1 == i) = [] := by
  induction as with
  | nil => intro s _ _; rfl
  | cons a rest ih =>
    intro s hsub hw
    cases a with
    | resolve v =>
      cases hset : s.settled with
      | none =>
        simp only [deferredRun, deferredStep, hset]
        rw [List.filter_append, filter_fst_map_pair, hw,
          ih ⟨some (.fulfilled v), []⟩ hsub rfl]
        rfl
      | some o =>
        simp only [deferredRun, deferredStep, hset]
        rw [List.nil_append]
        exact ih ⟨some o, s.waiting⟩ hsub hw
    | reject r =>
      cases hset : s.settled with
      | none =>
        simp only [deferredRun, deferredStep, hset]
        rw [List.filter_append, filter_fst_map_pair, hw,
          ih ⟨some (.rejected r), []⟩ hsub rfl]
        rfl
      | some o =>
        simp only [deferredRun, deferredStep, hset]
        rw [List.nil_append]
        exact ih ⟨some o, s.waiting⟩ hsub hw
    | subscribe j =>
      cases hj : j == i with
      | true =>
        exfalso
        rw [show subscribersOf (DeferredAction.subscribe j :: rest) =
            j :: subscribersOf rest from rfl,
          filterCons_pos (fun k => k == i) j _ hj] at hsub
        exact List.cons_ne_nil _ _ hsub
      | false =>
        have hsub' : (subscribersOf rest).filter (fun k => k == i) = [] := by
          rw [show subscribersOf (DeferredAction.subscribe j :: rest) =
              j :: subscribersOf rest from rfl,
            filterCons_neg (fun k => k == i) j _ hj] at hsub
          exact hsub
        cases hset : s.settled with
        | none =>
          simp only [deferredRun, deferredStep, hset]
          rw [List.nil_append]
          refine ih ⟨none, s.waiting ++ [j]⟩ hsub' ?_
          rw [List.filter_append, hw, filterCons_neg (fun k => k == i) j _ hj]
          rfl
        | some o =>
          simp only [deferredRun, deferredStep, hset]
          rw [List.filter_append, filterCons_neg (fun d => d.1 == i) (j, o) _ hj,
            List.filter_nil, List.nil_append]
          exact ih ⟨some o, s.waiting⟩ hsub' hw

/-- A pending observer already waiting is notified exactly once, with the
outcome of the first settlement, provided it never subscribes again. -/
theorem deferredRun_waiting_delivery {T R ι : Type} [DecidableEq ι]
    (i : ι) (out : Outcome T R) (as : List (DeferredAction T R ι)) :
    ∀ w : List ι,
    w.filter (fun j => j == i) = [i] →
    (subscribersOf as).filter (fun j => j == i) = [] →
    firstSettlement as = some out →
    ((deferredRun ⟨none, w⟩ as).2).filter (fun d => d.1 == i) = [(i, out)] := by
  induction as with
  | nil => intro w _ _ hfs; simp [firstSettlement] at hfs
  | cons a rest ih =>
    intro w hw hsub hfs
    cases a with
    | resolve v =>
      simp only [firstSettlement, Option.some.injEq] at hfs
      subst hfs
      simp only [deferredRun, deferredStep]
      rw [List.filter_append, filter_fst_map_pair, hw,
        deferredRun_settled_deliveries, filter_fst_map_pair,
        show (subscribersOf rest).filter (fun k => k == i) = [] from hsub]
      rfl
    | reject r =>
      simp only [firstSettlement, Option.some.injEq] at hfs
      subst hfs
      simp only [deferredRun, deferredStep]
      rw [List.filter_append, filter_fst_map_pair, hw,
        deferredRun_settled_deliveries, filter_fst_map_pair,
        show (subscribersOf rest).filter (fun k => k == i) = [] from hsub]
      rfl
    | subscribe j =>
      cases hj : j == i with
      | true =>
        exfalso
        rw [show subscribersOf (DeferredAction.subscribe j :: rest) =
            j :: subscribersOf rest from rfl,
          filterCons_pos (fun k => k == i) j _ hj] at hsub
        exact List.cons_ne_nil _ _ hsub
      | false =>
        have hsub' : (subscribersOf rest).filter (fun k => k == i) = [] := by
          rw [show subscribersOf (DeferredAction.subscribe j :: rest) =
              j :: subscribersOf rest from rfl,
            filterCons_neg (fun k => k == i) j _ hj] at hsub
          exact hsub
        simp only [deferredRun, deferredStep]
        rw [List.nil_append]
        refine ih (w ++ [j]) ?_ hsub' hfs
        rw [List.filter_append, hw, filterCons_neg (fun k => k == i) j _ hj]
        rfl

/-- A pending observer that subscribes exactly once is notified exactly once,
with the outcome of the first settlement. -/
theorem deferredRun_subscriber_delivery {T R ι : Type} [DecidableEq ι]
    (i : ι) (out : Outcome T R) (as : List (DeferredAction T R ι)) :
    ∀ w : List ι,
    w.filter (fun j => j == i) = [] →
    (subscribersOf as).filter (fun j => j == i) = [i] →
    firstSettlement as = some out →
    ((deferredRun ⟨none, w⟩ as).2).filter (fun d => d.1 == i) = [(i, out)] := by
  induction as with
  | nil => intro w _ hsub _; exact absurd hsub.symm (List.cons_ne_nil _ _)
  | cons a rest ih =>
    intro w hw hsub hfs
    cases a with
    | resolve v =>
      simp only [firstSettlement, Option.some.injEq] at hfs
      subst hfs
      simp only [deferredRun, deferredStep]
      rw [List.filter_append, filter_fst_map_pair, hw,
        deferredRun_settled_deliveries, filter_fst_map_pair,
        show (subscribersOf rest).filter (fun k => k == i) = [i] from hsub]
      rfl
    | reject r =>
      simp only [firstSettlement, Option.some.injEq] at hfs
      subst hfs
      simp only [deferredRun, deferredStep]
      rw [List.filter_append, filter_fst_map_pair, hw,
        deferredRun_settled_deliveries, filter_fst_map_pair,
        show (subscribersOf rest).filter (fun k => k == i) = [i] from hsub]
      rfl
    | subscribe j =>
      cases hj : j == i with
      | true =>
        have hji : j = i := by simpa using hj
        have hsub' : (subscribersOf rest).filter (fun k => k == i) = [] := by
          rw [show subscribersOf (DeferredAction.subscribe j :: rest) =
              j :: subscribersOf rest from rfl,
            filterCons_pos (fun k => k == i) j _ hj] at hsub
          exact (List.cons_eq_cons.mp hsub).2
        simp only [deferredRun, deferredStep]
        rw [List.nil_append]
        refine deferredRun_waiting_delivery i out rest (w ++ [j]) ?_ hsub' hfs
        rw [List.filter_append, hw, filterCons_pos (fun k => k == i) j _ hj, hji]
        rfl
      | false =>
        have hsub' : (subscribersOf rest).filter (fun k => k == i) = [i] := by
          rw [show subscribersOf (DeferredAction.subscribe j :: rest) =
              j :: subscribersOf rest from rfl,
            filterCons_neg (fun k => k == i) j _ hj] at hsub
          exact hsub
        simp only [deferredRun, deferredStep]
        rw [List.nil_append]
        refine ih (w ++ [j]) ?_ hsub' hfs
        rw [List.filter_append, hw, filterCons_neg (fun k => k == i) j _ hj]
        rfl

/-- The settled outcome after any action sequence is the outcome of the first
`resolve`/`reject` in it, if any. -/
theorem deferredRun_settled_eq_firstSettlement {T R ι : Type}
    (as : List (DeferredAction T R ι)) :
    ∀ w : List ι,
    ((deferredRun ⟨none, w⟩ as).1).settled = firstSettlement as := by
  induction as with
  | nil => intro w; rfl
  | cons a rest ih =>
    intro w
    cases a with
    | resolve v =>
      simp [deferredRun, deferredStep, deferredRun_settled_const, firstSettlement]
    | reject r =>
      simp [deferredRun, deferredStep, deferredRun_settled_const, firstSettlement]
    | subscribe j =>
      simp [deferredRun, deferredStep, firstSettlement, ih]

/-- C8: a deferred value is settled at most once — after any sequence of
`resolve`/`reject`/`subscribe` actions its outcome is the one fixed by the
first `resolve` or `reject`, later invocations being no-ops — and every
observer that subscribes exactly once, before or after settlement, is notified
exactly once, with that first outcome. -/
theorem claim8_deferred_settled_once {T R ι : Type} [DecidableEq ι]
    (actions : List (DeferredAction T R ι)) (i : ι) (out : Outcome T R) :
    ((deferredRun (DeferredState.init T R ι) actions).1).settled =
      firstSettlement actions ∧
    (firstSettlement actions = some out →
      (subscribersOf actions).filter (fun j => j == i) = [i] →
      ((deferredRun (DeferredState.init T R ι) actions).2).filter
        (fun d => d.1 == i) = [(i, out)]) :=
  ⟨deferredRun_settled_eq_firstSettlement actions [],
   fun hfs hsub => deferredRun_subscriber_delivery i out actions [] rfl hsub hfs⟩

/-- Witness for C8: resolving with 5, then rejecting and resolving again, only
honors the first action; the observer subscribed before settlement is notified
exactly once with `fulfilled 5`. -/
theorem claim8_witness :
    ((deferredRun (DeferredState.init Nat String Nat)
      [.subscribe 0, .resolve 5, .reject "boom", .resolve 6, .subscribe 1]).2).filter
        (fun d => d.1 == 0) = [(0, .fulfilled 5)] :=
  (claim8_deferred_settled_once
    [.subscribe 0, .resolve 5, .reject "boom", .resolve 6, .subscribe 1]
    0 (.fulfilled 5)).2 (by decide) (by decide)

end JupyterContents
